import Mathlib

/-!
# Verification of the `user_seed` batch seeder

Shallow embedding of `src/seeds/user_seed.py`: a one-shot script that
loads configuration from the environment, generates `count` fake user
records with unique emails/usernames, hashes their passwords with
bcrypt plus a configuration-level pepper, and commits them to a `users`
table as one transaction, rolling back on any error.

Modelling choices:
  * Python `str` is Lean `String` (for the startup log message, which
    needs character-level reasoning, `List Char` — the `.data` of the
    strings involved).
  * The Faker random stream is an arbitrary function `draws : Nat → UserData`
    giving the candidate produced at the i-th draw of the run.
  * pydantic's `EmailStr` field check is an arbitrary predicate
    `validEmail : String → Bool`; constructing `UserData` with an
    invalid email raises `ValidationError`, which in the embedding is
    the `.raised .validation` outcome (it propagates, as in the code —
    `generate_fake_user` has no try/except).
  * The unbounded `while True` loop of `generate_fake_user` is embedded
    with explicit fuel: `.diverges` for a given fuel means the loop has
    not finished within that many iterations, and divergence of the
    Python loop is `∀ fuel, result = .diverges`.
  * The bcrypt library (`passlib.CryptContext`) is an abstract
    `HashBackend` with its documented contract `HashBackend.Sound`;
    its internal per-call random salt is an extra `Nat` argument.
  * The database session is a `Store` (list of committed rows); commit
    enforces the two UNIQUE column constraints.  A possible concurrent
    writer is modelled by letting the store at commit time
    (`commitStore`) differ from the one the duplicate index was loaded
    from (`loadStore`); an unexpected fault during commit is the
    `commitFault` flag, and a failure of `Base.metadata.create_all`
    (which in the code happens *outside* the try/except) is the
    `createAllFault` flag.
-/

namespace UserSeed

/-- A candidate record as built by `UserData(...)` in
`generate_fake_user` (lines 101–107): five string fields, the password
still in plaintext. -/
structure UserData where
  first_name : String
  last_name : String
  email : String
  username : String
  password : String
deriving DecidableEq, Repr

/-- A row of the `users` table as built in `seed_users` (lines
134–140): same fields but with the hashed password.  The surrogate id
and the timestamps are database defaults and play no role in any
claim, so they are not carried. -/
structure UserRow where
  first_name : String
  last_name : String
  email : String
  username : String
  password : String
deriving DecidableEq, Repr

/-- The persisted `users` table. -/
structure Store where
  rows : List UserRow
deriving DecidableEq, Repr

/-- The exceptions that can escape the generation loop: pydantic's
`ValidationError`, raised by the `UserData(...)` constructor when the
drawn email fails the `EmailStr` check. -/
inductive SeedExn where
  | validation
deriving DecidableEq, Repr

/-- Result of one call to `generate_fake_user`, at a given fuel:
either a candidate was accepted (together with the updated duplicate
index and the index of the next unused draw), or a `ValidationError`
escaped, or the loop is still running when the fuel runs out. -/
inductive GenOutcome where
  | accepted (u : UserData) (emails usernames : List String) (next : Nat)
  | raised (e : SeedExn)
  | diverges
deriving DecidableEq, Repr

/-- `generate_fake_user` (lines 93–111).  Draws `draws i`,
`draws (i+1)`, … in turn; each draw first passes through the
`UserData` constructor (raising `ValidationError` when
`validEmail` rejects the email), then is accepted iff its email and
username are both absent from the duplicate index, in which case both
values are added to the index (Python `set.add` ~ cons). -/
def generate_fake_user (validEmail : String → Bool) (draws : Nat → UserData)
    (fuel : Nat) (i : Nat) (existing_emails existing_usernames : List String) :
    GenOutcome :=
  match fuel with
  | 0 => .diverges
  | fuel + 1 =>
    let u := draws i
    if validEmail u.email = false then .raised .validation
    else if u.email ∉ existing_emails ∧ u.username ∉ existing_usernames then
      .accepted u (u.email :: existing_emails) (u.username :: existing_usernames) (i + 1)
    else
      generate_fake_user validEmail draws fuel (i + 1) existing_emails existing_usernames

/-- The bcrypt hashing backend (`passlib.CryptContext(schemes=["bcrypt"])`),
kept abstract: `hash` takes the input string and a stand-in for the
per-call internal random salt; `verify` checks a candidate input
against a digest. -/
structure HashBackend where
  hash : String → Nat → String
  verify : String → String → Bool

/-- The documented contract of the bcrypt backend: verification
succeeds exactly for the hashed input, and a digest is never equal to
the input (nor to any prefix of it — bcrypt digests carry the `$2b$…`
modular-crypt header, which no password that was fed through
`hash_password` reproduces; the spec takes this as given). -/
def HashBackend.Sound (B : HashBackend) : Prop :=
  (∀ s r, B.verify s (B.hash s r) = true) ∧
  (∀ s s' r, s' ≠ s → B.verify s' (B.hash s r) = false) ∧
  (∀ s r p, p.length ≤ s.length → B.hash s r ≠ p)

/-- `hash_password` (lines 85–91): concatenates the plaintext with the
configuration salt (the global pepper) and hands the result to bcrypt. -/
def hash_password (B : HashBackend) (plain_password : String) (salt : String)
    (r : Nat) : String :=
  B.hash (plain_password ++ salt) r

/-- The `User(...)` row built from an accepted candidate and its
hashed password (lines 134–140). -/
def mkRow (u : UserData) (hashed : String) : UserRow :=
  { first_name := u.first_name, last_name := u.last_name,
    email := u.email, username := u.username, password := hashed }

/-- Result of the generation loop of `seed_users` (lines 129–142):
the accumulated batch `users_to_add`, the duplicate index after the
loop and the next unused draw — or a propagated exception, or
divergence of some inner `generate_fake_user` call. -/
inductive LoopOutcome where
  | done (batch : List UserRow) (emails usernames : List String) (next : Nat)
  | raised (e : SeedExn)
  | diverges
deriving DecidableEq, Repr

/-- The `for i in range(1, count+1)` loop of `seed_users` (lines
129–142), with `n` iterations left: each iteration calls
`generate_fake_user` (threading the mutable duplicate-index sets),
hashes the accepted candidate's password with the pepper, and appends
the row to the batch.  `j` is the index of the next unused draw; it
doubles as the stand-in for bcrypt's per-call randomness. -/
def seedLoop (B : HashBackend) (validEmail : String → Bool)
    (draws : Nat → UserData) (salt : String) (fuel : Nat) :
    Nat → Nat → List String → List String → List UserRow → LoopOutcome
  | 0, j, emails, usernames, acc => .done acc.reverse emails usernames j
  | n + 1, j, emails, usernames, acc =>
    match generate_fake_user validEmail draws fuel j emails usernames with
    | .diverges => .diverges
    | .raised e => .raised e
    | .accepted u emails' usernames' j' =>
      seedLoop B validEmail draws salt fuel n j' emails' usernames'
        (mkRow u (hash_password B u.password salt j') :: acc)

/-- The duplicate index loaded from the store at the start of the run
(lines 125–126): the emails and usernames of all existing rows. -/
def loadIndex (st : Store) : List String × List String :=
  (st.rows.map (·.email), st.rows.map (·.username))

/-- Whether a batch passes the table's two UNIQUE column constraints
against the store it is committed into: no duplicate email or
username inside the batch, and none colliding with an existing row. -/
def batchOk (st : Store) (batch : List UserRow) : Bool :=
  (batch.map (·.email)).Nodup ∧ (batch.map (·.username)).Nodup ∧
    ∀ r ∈ batch, ∀ s ∈ st.rows, r.email ≠ s.email ∧ r.username ≠ s.username

/-- `session.add_all` + `session.commit()` (lines 145–147): appends
the whole batch atomically if the UNIQUE constraints hold, otherwise
raises `IntegrityError` (`none`). -/
def tryCommit (st : Store) (batch : List UserRow) : Option Store :=
  if batchOk st batch then some ⟨st.rows ++ batch⟩ else none

/-- What `seed_users` prints/does on its way out: the success message
`"Successfully added {count} users"`, or one of its three except
branches (lines 149–157), each of which rolls the session back. -/
inductive SeedOutcome where
  | success (count : Int)
  | integrityError
  | validationError
  | unexpectedError
deriving DecidableEq, Repr

/-- Result of one call to `seed_users`: an exception escaped the
function (only possible from `Base.metadata.create_all`, line 119,
which sits *outside* the try/except), or the function returned with
the given final store and printed outcome, or the generation loop
never finished. -/
inductive SeedResult where
  | uncaught (store : Store)
  | finished (store : Store) (outcome : SeedOutcome)
  | diverges
deriving DecidableEq, Repr

/-- `seed_users` (lines 113–160).  `loadStore` is the store the
duplicate index is loaded from (lines 125–126); `commitStore` is the
store at commit time — equal to `loadStore` unless a concurrent
writer raced the run.  `createAllFault` injects a failure of
`create_all` (uncaught); `commitFault` injects an unexpected fault in
the submission phase (caught by `except Exception`).  Every caught
exception leads to `session.rollback()`: the run leaves the store as
it stood at commit time. -/
def seed_users (B : HashBackend) (validEmail : String → Bool)
    (draws : Nat → UserData) (salt : String) (fuel : Nat)
    (createAllFault commitFault : Bool) (loadStore commitStore : Store)
    (count : Int) : SeedResult :=
  if createAllFault then .uncaught loadStore
  else
    match seedLoop B validEmail draws salt fuel count.toNat 0
        (loadIndex loadStore).1 (loadIndex loadStore).2 [] with
    | .diverges => .diverges
    | .raised .validation => .finished commitStore .validationError
    | .done batch _ _ _ =>
      if commitFault then .finished commitStore .unexpectedError
      else
        match tryCommit commitStore batch with
        | some st' => .finished st' (.success count)
        | none => .finished commitStore .integrityError

/-! ## Configuration (`Settings`, lines 21–43) -/

/-- The environment variables the `Settings` model reads: the `DB_`-
prefixed connection parameters and the unprefixed `SALT`.  `none`
means the variable is absent.  The port is kept already parsed; its
default is applied by the model. -/
structure Env where
  db_host : Option String
  db_user : Option String
  db_password : Option String
  db_name : Option String
  db_port : Option Int
  salt : Option String

/-- The validated settings value (lines 21–34). -/
structure Settings where
  db_host : String
  db_user : String
  db_password : String
  db_name : String
  db_port : Int
  salt : String
deriving DecidableEq, Repr

/-- The names of the required fields absent from the environment, in
declaration order — what pydantic's `ValidationError` message lists. -/
def missingFields (e : Env) : List String :=
  (if e.db_host.isNone then ["db_host"] else []) ++
  (if e.db_user.isNone then ["db_user"] else []) ++
  (if e.db_password.isNone then ["db_password"] else []) ++
  (if e.db_name.isNone then ["db_name"] else []) ++
  (if e.salt.isNone then ["salt"] else [])

/-- `Settings()` (line 38): succeeds iff every required field is
present, applying the port default `5432`; otherwise raises a
`ValidationError` listing every missing field. -/
def Settings.load (e : Env) : Except (List String) Settings :=
  match e.db_host, e.db_user, e.db_password, e.db_name, e.salt with
  | some h, some u, some p, some n, some s =>
    .ok { db_host := h, db_user := u, db_password := p, db_name := n,
          db_port := e.db_port.getD 5432, salt := s }
  | _, _, _, _, _ => .error (missingFields e)

/-- The startup line printed after settings load succeeds (line 39):
`f"Loaded settings: db_host={...}, db_user={...}, salt={settings.salt[:4]}****"`.
Stated over `List Char` (the `.data` of the strings) so the exposure
of the salt prefix can be reasoned about character by character;
Python's `salt[:4]` is `List.take 4`. -/
def startupMessage (db_host db_user salt : List Char) : List Char :=
  "Loaded settings: db_host=".data ++ db_host ++ ", db_user=".data ++ db_user ++
    ", salt=".data ++ salt.take 4 ++ "****".data

/-! ## CLI (`parse_arguments`, lines 162–169) and `main` -/

/-- Value of a decimal digit string (helper for `parseInt`): `none`
as soon as a non-digit appears. -/
def digitsVal : List Char → Nat → Option Nat
  | [], acc => some acc
  | c :: cs, acc =>
    if c.isDigit then digitsVal cs (acc * 10 + (c.toNat - 48)) else none

/-- Python's `int()` as applied by argparse's `type=int` to an option
value: an optional leading minus sign followed by decimal digits
(whitespace stripping and underscore separators are not exercised by
any claim and are not modelled). -/
def parseInt (s : String) : Option Int :=
  match s.data with
  | '-' :: (d :: ds) => (digitsVal (d :: ds) 0).map (fun n => -(n : Int))
  | [] => none
  | ds => (digitsVal ds 0).map (fun n => (n : Int))

/-- `parse_arguments` (lines 162–169), modelling the argparse parser
with the single option `-n`/`--number` (`type=int`, default 10):
scans the argument list, accepting `-n v`, `--number v` and
`--number=v` (last occurrence wins, as in argparse) and rejecting
anything else with a usage error and exit code 2.  (argparse's
automatic `-h` and abbreviated long options are not exercised by any
claim and are not modelled.) -/
def parseArgsLoop : List String → Int → Except Nat Int
  | [], acc => .ok acc
  | a :: rest, _ =>
    if a = "-n" ∨ a = "--number" then
      match rest with
      | [] => .error 2
      | v :: rest' =>
        match parseInt v with
        | some k => parseArgsLoop rest' k
        | none => .error 2
    else if a.startsWith "--number=" then
      match parseInt (a.drop 9) with
      | some k => parseArgsLoop rest k
      | none => .error 2
    else .error 2

/-- `parse_arguments` proper: the scan above starting from the
default value 10. -/
def parse_arguments (argv : List String) : Except Nat Int :=
  parseArgsLoop argv 10

/-- How a whole process run ends. -/
inductive MainResult where
  | configError (errors : List String) (store : Store)
  | usageError (store : Store)
  | uncaught (store : Store)
  | completed (store : Store) (outcome : SeedOutcome)
  | diverges
deriving Repr

/-- The process exit code of a run: `exit(1)` on a configuration
error (line 43), argparse's `exit(2)` on a usage error, `1` for a
Python traceback from an uncaught exception, `0` when `main` returns
normally — note `seed_users` catches every `Exception`, so a rolled-
back run still exits 0.  `none` = the process never exits. -/
def exitCodeOf : MainResult → Option Nat
  | .configError _ _ => some 1
  | .usageError _ => some 2
  | .uncaught _ => some 1
  | .completed _ _ => some 0
  | .diverges => none

/-- The whole program: module import runs `Settings()` (exiting with
code 1 and touching nothing on a validation error), then `main`
parses the CLI and calls `seed_users` with the store as both load-
and commit-time state (the single-process run of the script). -/
def runMain (e : Env) (argv : List String) (B : HashBackend)
    (validEmail : String → Bool) (draws : Nat → UserData) (fuel : Nat)
    (createAllFault commitFault : Bool) (store : Store) : MainResult :=
  match Settings.load e with
  | .error errs => .configError errs store
  | .ok st =>
    match parse_arguments argv with
    | .error _ => .usageError store
    | .ok n =>
      match seed_users B validEmail draws st.salt fuel createAllFault
          commitFault store store n with
      | .uncaught st' => .uncaught st'
      | .finished st' out => .completed st' out
      | .diverges => .diverges

/-! ## Concrete instances used to exercise the definitions -/

/-- A toy hashing backend satisfying the bcrypt contract: it marks
the input with a leading `$` (so a digest is never as short as any
input prefix) and verifies by re-marking. -/
def toyBackend : HashBackend where
  hash := fun s _ => "$" ++ s
  verify := fun c d => d == "$" ++ c

/-- An email check that accepts everything (faker emails are
well-formed). -/
def cValid : String → Bool := fun _ => true

/-- An email check that rejects the one malformed address `"bad@"`. -/
def cValidBad : String → Bool := fun s => !(s == "bad@")

/-- A concrete draw stream. -/
def cDraws : Nat → UserData
  | 0 => ⟨"Ada", "Lovelace", "a@x.com", "ada", "pw0"⟩
  | 1 => ⟨"Bob", "Byron", "b@x.com", "bob", "pw1"⟩
  | _ + 2 => ⟨"Cy", "Cz", "c@x.com", "cy", "pw2"⟩

/-- A draw stream whose first candidate has the malformed email
`"bad@"` and whose later candidates are fine. -/
def cDrawsBad : Nat → UserData
  | 0 => ⟨"Mal", "Formed", "bad@", "mal", "pw0"⟩
  | _ + 1 => ⟨"Good", "Guy", "good@x.com", "good", "pw1"⟩

/-! ## Behaviour of `generate_fake_user` -/

/-- An accepted candidate was fresh on both fields, and acceptance
adds exactly its email and username to the duplicate index. -/
lemma generate_accept_spec (v : String → Bool) (draws : Nat → UserData)
    (fuel i : Nat) (emails usernames : List String) (u : UserData)
    (es us : List String) (j : Nat)
    (h : generate_fake_user v draws fuel i emails usernames =
      .accepted u es us j) :
    u.email ∉ emails ∧ u.username ∉ usernames ∧
      es = u.email :: emails ∧ us = u.username :: usernames := by
  induction fuel generalizing i with
  | zero => simp [generate_fake_user] at h
  | succ fuel ih =>
    simp only [generate_fake_user] at h
    split_ifs at h with h1 h2
    · rw [GenOutcome.accepted.injEq] at h
      obtain ⟨hu, hes, hus, -⟩ := h
      subst hu; subst hes; subst hus
      exact ⟨h2.1, h2.2, rfl, rfl⟩
    · exact ih (i + 1) h

/-- Invariant of the generation loop: on a `.done` outcome the batch
extends the accumulator with fresh rows whose emails (usernames) are
pairwise distinct and absent from the incoming duplicate index, and
the outgoing index is exactly the incoming one extended with those
values. -/
lemma seedLoop_done_spec (B : HashBackend) (v : String → Bool)
    (draws : Nat → UserData) (salt : String) (fuel : Nat) :
    ∀ (n j : Nat) (emails usernames : List String) (acc batch : List UserRow)
      (es us : List String) (j' : Nat),
    seedLoop B v draws salt fuel n j emails usernames acc =
      .done batch es us j' →
    ∃ news : List UserRow,
      batch = acc.reverse ++ news ∧
      es = (news.map (·.email)).reverse ++ emails ∧
      us = (news.map (·.username)).reverse ++ usernames ∧
      (news.map (·.email)).Nodup ∧ (news.map (·.username)).Nodup ∧
      (∀ x ∈ news.map (·.email), x ∉ emails) ∧
      (∀ x ∈ news.map (·.username), x ∉ usernames) := by
  intro n
  induction n with
  | zero =>
    intro j emails usernames acc batch es us j' h
    simp only [seedLoop, LoopOutcome.done.injEq] at h
    obtain ⟨hb, he, hu, -⟩ := h
    exact ⟨[], by simp [hb.symm, he.symm, hu.symm]⟩
  | succ n ih =>
    intro j emails usernames acc batch es us j' h
    rw [seedLoop] at h
    cases hg : generate_fake_user v draws fuel j emails usernames with
    | diverges => rw [hg] at h; simp at h
    | raised e => rw [hg] at h; simp at h
    | accepted u emails1 usernames1 j1 =>
      rw [hg] at h
      obtain ⟨hfe, hfu, he1, hu1⟩ :=
        generate_accept_spec v draws fuel j emails usernames u
          emails1 usernames1 j1 hg
      obtain ⟨news1, hb, hes, hus, hnd1, hnd2, hf1, hf2⟩ :=
        ih j1 emails1 usernames1 _ batch es us j' h
      subst he1; subst hu1
      refine ⟨mkRow u (hash_password B u.password salt j1) :: news1,
        ?_, ?_, ?_, ?_, ?_, ?_, ?_⟩
      · rw [hb]; simp [List.append_assoc]
      · rw [hes]; simp [mkRow, List.append_assoc]
      · rw [hus]; simp [mkRow, List.append_assoc]
      · refine List.nodup_cons.mpr ⟨?_, hnd1⟩
        intro hmem
        exact (hf1 _ hmem) (List.mem_cons_self _ _)
      · refine List.nodup_cons.mpr ⟨?_, hnd2⟩
        intro hmem
        exact (hf2 _ hmem) (List.mem_cons_self _ _)
      · intro x hx
        rcases List.mem_cons.mp hx with hx | hx
        · simpa [mkRow] using hx ▸ hfe
        · exact fun hc => (hf1 x hx) (List.mem_cons_of_mem _ hc)
      · intro x hx
        rcases List.mem_cons.mp hx with hx | hx
        · simpa [mkRow] using hx ▸ hfu
        · exact fun hc => (hf2 x hx) (List.mem_cons_of_mem _ hc)

/-! ## The claims -/

/-- C1: For every run seeding a batch of N records, the N generated
records' emails are pairwise distinct and distinct from every email
loaded from the store at the start of the run, and likewise the N
usernames; and `generate_fake_user` returns a candidate only when
both its email and its username are simultaneously absent from the
duplicate index. -/
theorem claim_C1_batch_unique :
    (∀ (v : String → Bool) (draws : Nat → UserData) (fuel i : Nat)
       (emails usernames : List String) (u : UserData)
       (es us : List String) (j : Nat),
       generate_fake_user v draws fuel i emails usernames =
         .accepted u es us j →
       u.email ∉ emails ∧ u.username ∉ usernames) ∧
    (∀ (B : HashBackend) (v : String → Bool) (draws : Nat → UserData)
       (salt : String) (fuel n j : Nat) (emails usernames : List String)
       (batch : List UserRow) (es us : List String) (j' : Nat),
       seedLoop B v draws salt fuel n j emails usernames [] =
         .done batch es us j' →
       (batch.map (·.email)).Nodup ∧
       (∀ x ∈ batch.map (·.email), x ∉ emails) ∧
       (batch.map (·.username)).Nodup ∧
       (∀ x ∈ batch.map (·.username), x ∉ usernames)) := by
  constructor
  · intro v draws fuel i emails usernames u es us j h
    obtain ⟨h1, h2, -, -⟩ :=
      generate_accept_spec v draws fuel i emails usernames u es us j h
    exact ⟨h1, h2⟩
  · intro B v draws salt fuel n j emails usernames batch es us j' h
    obtain ⟨news, hb, -, -, hnd1, hnd2, hf1, hf2⟩ :=
      seedLoop_done_spec B v draws salt fuel n j emails usernames [] batch
        es us j' h
    simp only [List.reverse_nil, List.nil_append] at hb
    subst hb
    exact ⟨hnd1, hf1, hnd2, hf2⟩

/-- Witness for C1: a concrete two-record run over a store already
holding `z@x.com`/`zed` produces a batch with distinct, fresh emails
and usernames, and a concrete accepted draw was fresh. -/
theorem claim_C1_batch_unique_witness :
    ((cDraws 0).email ∉ (["z@x.com"] : List String) ∧
      (cDraws 0).username ∉ (["zed"] : List String)) ∧
    (([⟨"Ada", "Lovelace", "a@x.com", "ada", "$pw0pep"⟩,
       ⟨"Bob", "Byron", "b@x.com", "bob", "$pw1pep"⟩] :
        List UserRow).map (·.email)).Nodup := by
  constructor
  · exact claim_C1_batch_unique.1 cValid cDraws 3 0 ["z@x.com"] ["zed"]
      (cDraws 0) ("a@x.com" :: ["z@x.com"]) ("ada" :: ["zed"]) 1 (by decide)
  · have h := claim_C1_batch_unique.2 toyBackend cValid cDraws "pep" 3 2 0
      ["z@x.com"] ["zed"]
      [⟨"Ada", "Lovelace", "a@x.com", "ada", "$pw0pep"⟩,
       ⟨"Bob", "Byron", "b@x.com", "bob", "$pw1pep"⟩]
      ("b@x.com" :: "a@x.com" :: ["z@x.com"]) ("bob" :: "ada" :: ["zed"]) 2
      (by decide)
    exact h.1

/-- C8: the duplicate index is used only as a membership test and
grows monotonically: an accepting call to `generate_fake_user` adds
exactly the accepted candidate's email and username (and a whole run
of the loop extends the index by exactly the batch's values); nothing
is ever removed — every value present at the start is still present
at the end. -/
theorem claim_C8_index_monotone :
    (∀ (v : String → Bool) (draws : Nat → UserData) (fuel i : Nat)
       (emails usernames : List String) (u : UserData)
       (es us : List String) (j : Nat),
       generate_fake_user v draws fuel i emails usernames =
         .accepted u es us j →
       es = u.email :: emails ∧ us = u.username :: usernames) ∧
    (∀ (B : HashBackend) (v : String → Bool) (draws : Nat → UserData)
       (salt : String) (fuel n j : Nat) (emails usernames : List String)
       (batch : List UserRow) (es us : List String) (j' : Nat),
       seedLoop B v draws salt fuel n j emails usernames [] =
         .done batch es us j' →
       es = (batch.map (·.email)).reverse ++ emails ∧
       us = (batch.map (·.username)).reverse ++ usernames ∧
       (∀ x ∈ emails, x ∈ es) ∧ (∀ x ∈ usernames, x ∈ us)) := by
  constructor
  · intro v draws fuel i emails usernames u es us j h
    obtain ⟨-, -, h3, h4⟩ :=
      generate_accept_spec v draws fuel i emails usernames u es us j h
    exact ⟨h3, h4⟩
  · intro B v draws salt fuel n j emails usernames batch es us j' h
    obtain ⟨news, hb, hes, hus, -, -, -, -⟩ :=
      seedLoop_done_spec B v draws salt fuel n j emails usernames [] batch
        es us j' h
    simp only [List.reverse_nil, List.nil_append] at hb
    subst hb
    refine ⟨hes, hus, ?_, ?_⟩
    · intro x hx; rw [hes]; exact List.mem_append_right _ hx
    · intro x hx; rw [hus]; exact List.mem_append_right _ hx

/-- Witness for C8: in a concrete accepted draw the index is exactly
the old index with the new email and username consed on, and after a
concrete run every pre-existing value is still in the index. -/
theorem claim_C8_index_monotone_witness :
    (("a@x.com" :: ["z@x.com"] : List String) =
        (cDraws 0).email :: ["z@x.com"] ∧
      ("ada" :: ["zed"] : List String) = (cDraws 0).username :: ["zed"]) ∧
    "z@x.com" ∈ ("b@x.com" :: "a@x.com" :: ["z@x.com"] : List String) := by
  constructor
  · exact claim_C8_index_monotone.1 cValid cDraws 3 0 ["z@x.com"] ["zed"]
      (cDraws 0) ("a@x.com" :: ["z@x.com"]) ("ada" :: ["zed"]) 1 (by decide)
  · have h := claim_C8_index_monotone.2 toyBackend cValid cDraws "pep" 3 2 0
      ["z@x.com"] ["zed"]
      [⟨"Ada", "Lovelace", "a@x.com", "ada", "$pw0pep"⟩,
       ⟨"Bob", "Byron", "b@x.com", "bob", "$pw1pep"⟩]
      ("b@x.com" :: "a@x.com" :: ["z@x.com"]) ("bob" :: "ada" :: ["zed"]) 2
      (by decide)
    exact h.2.2.1 "z@x.com" (by decide)

/-- C7: the retry loop of `generate_fake_user` has no upper bound on
the number of draws.  If every draw passes validation and some draw
has both email and username outside the duplicate index, the loop
terminates (some fuel suffices) with an accepted candidate; if every
draw collides, it runs forever (`.diverges` at every fuel). -/
theorem claim_C7_retry_loop :
    (∀ (v : String → Bool) (draws : Nat → UserData) (i : Nat)
       (emails usernames : List String),
       (∀ m, v (draws m).email = true) →
       ∀ k, (draws (i + k)).email ∉ emails ∧
            (draws (i + k)).username ∉ usernames →
       ∃ fuel u es us j,
         generate_fake_user v draws fuel i emails usernames =
           .accepted u es us j) ∧
    (∀ (v : String → Bool) (draws : Nat → UserData) (i : Nat)
       (emails usernames : List String),
       (∀ m, v (draws m).email = true) →
       (∀ k, ¬((draws k).email ∉ emails ∧ (draws k).username ∉ usernames)) →
       ∀ fuel, generate_fake_user v draws fuel i emails usernames =
         .diverges) := by
  constructor
  · intro v draws i emails usernames hv k
    induction k generalizing i with
    | zero =>
      intro hfresh
      refine ⟨1, draws i, (draws i).email :: emails,
        (draws i).username :: usernames, i + 1, ?_⟩
      simp only [generate_fake_user, hv i]
      simp only [Nat.add_zero] at hfresh
      simp [hfresh]
    | succ k ih =>
      intro hfresh
      by_cases hi : (draws i).email ∉ emails ∧ (draws i).username ∉ usernames
      · refine ⟨1, draws i, (draws i).email :: emails,
          (draws i).username :: usernames, i + 1, ?_⟩
        simp only [generate_fake_user, hv i]
        simp [hi]
      · obtain ⟨fuel, u, es, us, j, hrec⟩ := ih (i + 1)
          (by simpa [Nat.add_right_comm i 1 k] using hfresh)
        refine ⟨fuel + 1, u, es, us, j, ?_⟩
        simp only [generate_fake_user, hv i]
        simp [hi, hrec]
  · intro v draws i emails usernames hv hcol fuel
    induction fuel generalizing i with
    | zero => simp [generate_fake_user]
    | succ fuel ih =>
      simp only [generate_fake_user, hv i]
      simp [hcol i, ih (i + 1)]

/-- Witness for C7: with a fully colliding index the concrete loop is
still running after 7 iterations, while with the collision only on
the first draw some fuel accepts a candidate. -/
theorem claim_C7_retry_loop_witness :
    (∃ fuel u es us j,
      generate_fake_user cValid cDraws fuel 0 ["a@x.com"] ["zed"] =
        .accepted u es us j) ∧
    generate_fake_user cValid cDraws 7 0
      ["a@x.com", "b@x.com", "c@x.com"] ["x"] = .diverges := by
  constructor
  · exact claim_C7_retry_loop.1 cValid cDraws 0 ["a@x.com"] ["zed"]
      (fun m => rfl) 1 (by decide)
  · exact claim_C7_retry_loop.2 cValid cDraws 0
      ["a@x.com", "b@x.com", "c@x.com"] ["x"] (fun m => rfl)
      (by intro k
          match k with
          | 0 => decide
          | 1 => decide
          | m + 2 =>
            intro hc
            exact hc.1 (show "c@x.com" ∈ _ by decide)) 7

/-- Counterexample to C3: the claim says a candidate failing field
validation is discarded and re-drawn, never surfacing to the caller
of `generate_fake_user`.  In the code the `UserData(...)` constructor
(line 101) sits inside the `while` loop with no try/except, so the
`ValidationError` escapes `generate_fake_user` at once — here on a
stream whose first draw has the malformed email `"bad@"` even though
the very next draw is valid and fresh, a re-drawing generator would
have accepted it. -/
theorem claim_C3_counterexample :
    generate_fake_user cValidBad cDrawsBad 5 0 [] [] =
      .raised .validation ∧
    cValidBad (cDrawsBad 1).email = true ∧
    (cDrawsBad 1).email ∉ ([] : List String) ∧
    (cDrawsBad 1).username ∉ ([] : List String) := by decide

/-- C3 as amended: if the current draw fails field validation,
`generate_fake_user` raises `ValidationError` immediately (no local
re-draw), and the error is surfaced to `seed_users`, whose
`except ValidationError` branch rolls the batch back and reports it,
leaving the store unchanged. -/
theorem claim_C3_amended_validation_propagates :
    (∀ (v : String → Bool) (draws : Nat → UserData) (fuel i : Nat)
       (emails usernames : List String),
       v (draws i).email = false →
       generate_fake_user v draws (fuel + 1) i emails usernames =
         .raised .validation) ∧
    (∀ (B : HashBackend) (v : String → Bool) (draws : Nat → UserData)
       (salt : String) (fuel : Nat) (cf : Bool)
       (loadStore commitStore : Store) (count : Int),
       v (draws 0).email = false → 0 < count →
       seed_users B v draws salt (fuel + 1) false cf loadStore commitStore
         count = .finished commitStore .validationError) := by
  constructor
  · intro v draws fuel i emails usernames hv
    simp [generate_fake_user, hv]
  · intro B v draws salt fuel cf loadStore commitStore count hv hcount
    obtain ⟨m, hm⟩ : ∃ m, count.toNat = m + 1 :=
      ⟨count.toNat - 1, by omega⟩
    have hg : generate_fake_user v draws (fuel + 1) 0
        (loadIndex loadStore).1 (loadIndex loadStore).2 =
        .raised .validation := by
      simp [generate_fake_user, hv]
    simp [seed_users, hm, seedLoop, hg]

/-- Witness for the amended C3: the concrete malformed first draw
raises, and a 3-record run over it ends in the `Validation Error`
branch with the store untouched. -/
theorem claim_C3_amended_witness :
    generate_fake_user cValidBad cDrawsBad 4 0 [] [] =
      .raised .validation ∧
    seed_users toyBackend cValidBad cDrawsBad "pep" 4 false false
      ⟨[]⟩ ⟨[]⟩ 3 = .finished ⟨[]⟩ .validationError := by
  constructor
  · exact claim_C3_amended_validation_propagates.1 cValidBad cDrawsBad 3 0
      [] [] (by decide)
  · exact claim_C3_amended_validation_propagates.2 toyBackend cValidBad
      cDrawsBad "pep" 3 false ⟨[]⟩ ⟨[]⟩ 3 (by decide) (by decide)

/-- C2: whenever `seed_users` returns through any of its except
branches (uniqueness/integrity violation, validation failure, or any
other fault in the submission phase), the whole batch is rolled back:
the resulting store is exactly the store as it stood at commit time —
with no concurrent writer (`loadStore = commitStore`, the run of this
single-process script) that is the store from before the run.  No
partial batch survives and the function returns at once, attempting
no retry. -/
theorem claim_C2_rollback_atomic (B : HashBackend) (v : String → Bool)
    (draws : Nat → UserData) (salt : String) (fuel : Nat)
    (caf cf : Bool) (loadStore commitStore st' : Store) (count : Int)
    (out : SeedOutcome)
    (h : seed_users B v draws salt fuel caf cf loadStore commitStore count =
      .finished st' out)
    (herr : ∀ c, out ≠ .success c) :
    st' = commitStore := by
  rcases hl : seedLoop B v draws salt fuel count.toNat 0
      (loadIndex loadStore).1 (loadIndex loadStore).2 [] with
    ⟨batch, es, us, j⟩ | e | _
  · simp only [seed_users, hl] at h
    split_ifs at h with hcaf hcf
    · rw [SeedResult.finished.injEq] at h
      exact h.1.symm
    · rcases hc : tryCommit commitStore batch with - | st2
      · rw [hc] at h
        rw [SeedResult.finished.injEq] at h
        exact h.1.symm
      · rw [hc] at h
        rw [SeedResult.finished.injEq] at h
        exact absurd (h.2.symm) (herr count)
  · cases e
    simp only [seed_users, hl] at h
    split_ifs at h with hcaf
    rw [SeedResult.finished.injEq] at h
    exact h.1.symm
  · simp only [seed_users, hl] at h
    split_ifs at h with hcaf

/-- Witness for C2: a run whose single generated record collides with
a row (email `a@x.com`) that reached the store after the duplicate
index was loaded — the commit raises `IntegrityError` and the store
still holds exactly that one row. -/
theorem claim_C2_rollback_atomic_witness :
    seed_users toyBackend cValid cDraws "pep" 3 false false ⟨[]⟩
      ⟨[⟨"Eve", "Ve", "a@x.com", "other", "h"⟩]⟩ 1 =
      .finished ⟨[⟨"Eve", "Ve", "a@x.com", "other", "h"⟩]⟩
        .integrityError ∧
    (⟨[⟨"Eve", "Ve", "a@x.com", "other", "h"⟩]⟩ : Store) =
      ⟨[⟨"Eve", "Ve", "a@x.com", "other", "h"⟩]⟩ := by
  refine ⟨by decide, ?_⟩
  exact claim_C2_rollback_atomic toyBackend cValid cDraws "pep" 3
    false false ⟨[]⟩ ⟨[⟨"Eve", "Ve", "a@x.com", "other", "h"⟩]⟩
    ⟨[⟨"Eve", "Ve", "a@x.com", "other", "h"⟩]⟩ 1 .integrityError
    (by decide) (fun c hc => by cases hc)

/-- C9: for every count ≤ 0 the `for i in range(1, count+1)` loop
body never runs, so `seed_users` commits an empty batch, leaves the
store's rows exactly as they were, and still prints the
`Successfully added {count} users` message — a non-positive count is
not rejected. -/
theorem claim_C9_nonpositive_count (B : HashBackend) (v : String → Bool)
    (draws : Nat → UserData) (salt : String) (fuel : Nat) (st : Store)
    (count : Int) (h : count ≤ 0) :
    seed_users B v draws salt fuel false false st st count =
      .finished st (.success count) := by
  have h0 : count.toNat = 0 := by omega
  simp [seed_users, h0, seedLoop, tryCommit, batchOk]

/-- Witness for C9: a run with count `-3` over a one-row store
reports success for `-3` and leaves the row alone. -/
theorem claim_C9_nonpositive_count_witness :
    seed_users toyBackend cValid cDraws "pep" 2 false false
      ⟨[⟨"Eve", "Ve", "e@x.com", "eve", "h"⟩]⟩
      ⟨[⟨"Eve", "Ve", "e@x.com", "eve", "h"⟩]⟩ (-3) =
      .finished ⟨[⟨"Eve", "Ve", "e@x.com", "eve", "h"⟩]⟩
        (.success (-3)) :=
  claim_C9_nonpositive_count toyBackend cValid cDraws "pep" 2
    ⟨[⟨"Eve", "Ve", "e@x.com", "eve", "h"⟩]⟩ (-3) (by decide)

/-- The toy backend satisfies the bcrypt contract. -/
lemma toyBackend_sound : toyBackend.Sound := by
  refine ⟨?_, ?_, ?_⟩
  · intro s r
    simp [toyBackend]
  · intro s s' r hne
    simp only [toyBackend]
    rw [beq_eq_false_iff_ne]
    intro he
    have hd := congrArg String.data he
    simp only [String.data_append] at hd
    exact hne (String.ext (List.append_cancel_left hd)).symm
  · intro s r p hlen heq
    simp only [toyBackend] at heq
    have hL := congrArg String.length heq
    rw [String.length_append] at hL
    have h1 : "$".length = 1 := rfl
    omega

/-- C4: `hash_password` concatenates the plaintext with the fixed
configuration salt (the global pepper) and applies the bcrypt
backend; under the backend's contract the stored digest never equals
the plaintext, verification succeeds for the original
plaintext+pepper and fails for any different input. -/
theorem claim_C4_hash_password (B : HashBackend) (hB : B.Sound)
    (plain salt : String) (r : Nat) :
    hash_password B plain salt r = B.hash (plain ++ salt) r ∧
    hash_password B plain salt r ≠ plain ∧
    B.verify (plain ++ salt) (hash_password B plain salt r) = true ∧
    ∀ other, other ≠ plain ++ salt →
      B.verify other (hash_password B plain salt r) = false := by
  refine ⟨rfl, ?_, hB.1 (plain ++ salt) r,
    fun other hne => hB.2.1 (plain ++ salt) other r hne⟩
  exact hB.2.2 (plain ++ salt) r plain
    (by rw [String.length_append]; omega)

/-- Witness for C4 on the toy backend at concrete strings. -/
theorem claim_C4_hash_password_witness :
    hash_password toyBackend "pw" "pep" 0 ≠ "pw" ∧
    toyBackend.verify ("pw" ++ "pep")
      (hash_password toyBackend "pw" "pep" 0) = true ∧
    toyBackend.verify "wrong"
      (hash_password toyBackend "pw" "pep" 0) = false := by
  obtain ⟨-, hz2, hz3, hz4⟩ :=
    claim_C4_hash_password toyBackend toyBackend_sound "pw" "pep" 0
  exact ⟨hz2, hz3, hz4 "wrong" (by decide)⟩

/-- C5: if any required configuration field (db host, user, password,
database name, or salt) is missing from the environment, the program
stops in the configuration-error branch with exit code 1, printing a
validation error that lists every missing field, with the store left
untouched — no store operation is ever reached. -/
theorem claim_C5_config_error (e : Env) (argv : List String)
    (B : HashBackend) (v : String → Bool) (draws : Nat → UserData)
    (fuel : Nat) (caf cf : Bool) (store : Store)
    (h : e.db_host = none ∨ e.db_user = none ∨ e.db_password = none ∨
      e.db_name = none ∨ e.salt = none) :
    runMain e argv B v draws fuel caf cf store =
      .configError (missingFields e) store ∧
    exitCodeOf (runMain e argv B v draws fuel caf cf store) = some 1 ∧
    (e.db_host = none → "db_host" ∈ missingFields e) ∧
    (e.db_user = none → "db_user" ∈ missingFields e) ∧
    (e.db_password = none → "db_password" ∈ missingFields e) ∧
    (e.db_name = none → "db_name" ∈ missingFields e) ∧
    (e.salt = none → "salt" ∈ missingFields e) := by
  obtain ⟨h0, u0, p0, n0, port0, s0⟩ := e
  cases h0 <;> cases u0 <;> cases p0 <;> cases n0 <;> cases s0 <;>
    simp_all [runMain, Settings.load, missingFields, exitCodeOf]

/-- Witness for C5: an environment missing `DB_PASSWORD` and `SALT`
exits with code 1 listing both fields, store untouched. -/
theorem claim_C5_config_error_witness :
    runMain ⟨some "h", some "u", none, some "db", none, none⟩ []
      toyBackend cValid cDraws 3 false false ⟨[]⟩ =
      .configError ["db_password", "salt"] ⟨[]⟩ ∧
    "db_password" ∈
      missingFields ⟨some "h", some "u", none, some "db", none, none⟩ := by
  obtain ⟨hw1, -, -, -, hw2, -, -⟩ :=
    claim_C5_config_error ⟨some "h", some "u", none, some "db", none, none⟩
      [] toyBackend cValid cDraws 3 false false ⟨[]⟩ (Or.inr (Or.inr (Or.inl rfl)))
  exact ⟨hw1, hw2 rfl⟩

/-- C6: the CLI accepts exactly the one integer count flag
(`-n`/`--number`), defaulting to 10 and rejecting anything else; the
process exits 0 on a successful run (a normal return of `main`), 1
on a configuration error, and a non-zero code (the Python traceback
exit 1) on an unhandled seeding failure such as `create_all`
raising. -/
theorem claim_C6_cli_and_exit_codes :
    parse_arguments [] = .ok 10 ∧
    (∀ (s : String) (k : Int), parseInt s = some k →
      parse_arguments ["-n", s] = .ok k ∧
      parse_arguments ["--number", s] = .ok k) ∧
    (∀ (a : String) (rest : List String), a ≠ "-n" → a ≠ "--number" →
      a.startsWith "--number=" = false →
      parse_arguments (a :: rest) = .error 2) ∧
    (∀ (e : Env) (argv : List String) (B : HashBackend)
       (v : String → Bool) (draws : Nat → UserData) (fuel : Nat)
       (caf cf : Bool) (store : Store) (errs : List String),
      Settings.load e = .error errs →
      exitCodeOf (runMain e argv B v draws fuel caf cf store) = some 1) ∧
    (∀ (e : Env) (argv : List String) (B : HashBackend)
       (v : String → Bool) (draws : Nat → UserData) (fuel : Nat)
       (caf cf : Bool) (store st' : Store) (st : Settings) (n : Int)
       (out : SeedOutcome),
      Settings.load e = .ok st → parse_arguments argv = .ok n →
      seed_users B v draws st.salt fuel caf cf store store n =
        .finished st' out →
      exitCodeOf (runMain e argv B v draws fuel caf cf store) = some 0) ∧
    (∀ (e : Env) (argv : List String) (B : HashBackend)
       (v : String → Bool) (draws : Nat → UserData) (fuel : Nat)
       (cf : Bool) (store : Store) (st : Settings) (n : Int),
      Settings.load e = .ok st → parse_arguments argv = .ok n →
      exitCodeOf (runMain e argv B v draws fuel true cf store) =
        some 1) := by
  refine ⟨rfl, ?_, ?_, ?_, ?_, ?_⟩
  · intro s k hk
    constructor <;> simp [parse_arguments, parseArgsLoop, hk]
  · intro a rest ha1 ha2 ha3
    cases rest with
    | nil => simp [parse_arguments, parseArgsLoop, ha1, ha2, ha3]
    | cons v rest' =>
      simp [parse_arguments, parseArgsLoop, ha1, ha2, ha3]
  · intro e argv B v draws fuel caf cf store errs hload
    simp [runMain, hload, exitCodeOf]
  · intro e argv B v draws fuel caf cf store st' st n out hload hargs hseed
    simp [runMain, hload, hargs, hseed, exitCodeOf]
  · intro e argv B v draws fuel cf store st n hload hargs
    have hu : seed_users B v draws st.salt fuel true cf store store n =
        .uncaught store := by
      simp [seed_users]
    simp [runMain, hload, hargs, hu, exitCodeOf]

/-- Witness for C6: `-n 0` parses to 0, an unknown flag is rejected,
and the three exit-code behaviours at a concrete good/bad environment. -/
theorem claim_C6_cli_and_exit_codes_witness :
    parse_arguments ["-n", "0"] = .ok 0 ∧
    parse_arguments ["--count", "5"] = .error 2 ∧
    exitCodeOf (runMain ⟨some "h", some "u", none, some "db", none, none⟩
      [] toyBackend cValid cDraws 3 false false ⟨[]⟩) = some 1 ∧
    exitCodeOf (runMain ⟨some "h", some "u", some "p", some "db", none,
      some "pep"⟩ ["-n", "0"] toyBackend cValid cDraws 3 false false ⟨[]⟩) =
      some 0 ∧
    exitCodeOf (runMain ⟨some "h", some "u", some "p", some "db", none,
      some "pep"⟩ ["-n", "0"] toyBackend cValid cDraws 3 true false ⟨[]⟩) =
      some 1 := by
  refine ⟨(claim_C6_cli_and_exit_codes.2.1 "0" 0 (by decide)).1,
    claim_C6_cli_and_exit_codes.2.2.1 "--count" ["5"] (by decide)
      (by decide) (by decide),
    claim_C6_cli_and_exit_codes.2.2.2.1 _ [] toyBackend cValid cDraws 3
      false false ⟨[]⟩ ["db_password", "salt"] rfl,
    claim_C6_cli_and_exit_codes.2.2.2.2.1 _ ["-n", "0"] toyBackend cValid
      cDraws 3 false false ⟨[]⟩ ⟨[]⟩ ⟨"h", "u", "p", "db", 5432, "pep"⟩ 0
      (.success 0) rfl rfl (by decide),
    claim_C6_cli_and_exit_codes.2.2.2.2.2 _ ["-n", "0"] toyBackend cValid
      cDraws 3 false ⟨[]⟩ ⟨"h", "u", "p", "db", 5432, "pep"⟩ 0
      rfl rfl⟩

/-- If two startup lines agree, the salt prefixes they embed agree:
the trailing `****` anchors the prefix from the right, and the
`", salt="` marker is aperiodic, so no host/user content can
compensate for a different prefix.  Stated for `p1` at most as long
as `p2`. -/
lemma salt_tail_eq_aux (A B p1 p2 : List Char) (hle : p1.length ≤ p2.length)
    (h4 : p2.length ≤ 4)
    (h : A ++ ", salt=".data ++ p1 ++ "****".data =
      B ++ ", salt=".data ++ p2 ++ "****".data) : p1 = p2 := by
  have hT : ", salt=".data = [',', ' ', 's', 'a', 'l', 't', '='] := rfl
  rw [hT] at h
  have h1 : (A ++ [',', ' ', 's', 'a', 'l', 't', '='] ++ p1) =
      (B ++ [',', ' ', 's', 'a', 'l', 't', '='] ++ p2) :=
    List.append_cancel_right h
  have hlen : A.length + p1.length = B.length + p2.length := by
    have hc := congrArg List.length h1
    simp [List.length_append] at hc
    omega
  rw [List.append_assoc A, List.append_assoc B] at h1
  have h2 := congrArg (List.drop A.length) h1
  rw [List.drop_left] at h2
  rw [List.drop_append_eq_append_drop] at h2
  rw [List.drop_eq_nil_of_le (by omega : B.length ≤ A.length)] at h2
  rw [List.nil_append, List.drop_append_eq_append_drop] at h2
  have hd7 : A.length - B.length -
      ([',', ' ', 's', 'a', 'l', 't', '='] : List Char).length = 0 := by
    simp only [List.length_cons, List.length_nil]
    omega
  rw [hd7, List.drop_zero] at h2
  have hdle : A.length - B.length ≤ 4 := by omega
  set d := A.length - B.length with hdd
  interval_cases d
  · rw [List.drop_zero] at h2
    exact List.append_cancel_left h2
  all_goals (simp only [List.drop, List.cons_append, List.nil_append] at h2)
  all_goals (injection h2 with ha hb; exact absurd ha (by decide))

/-- Symmetric form of `salt_tail_eq_aux`. -/
lemma salt_tail_eq (A B p1 p2 : List Char) (hp1 : p1.length ≤ 4)
    (hp2 : p2.length ≤ 4)
    (h : A ++ ", salt=".data ++ p1 ++ "****".data =
      B ++ ", salt=".data ++ p2 ++ "****".data) : p1 = p2 := by
  rcases Nat.le_total p1.length p2.length with hle | hle
  · exact salt_tail_eq_aux A B p1 p2 hle hp2 h
  · exact (salt_tail_eq_aux B A p2 p1 hle hp1 h.symm).symm

/-- C10: after a successful configuration load the program prints the
first four characters of the secret salt (with db_host and db_user)
to standard output, so any two environments whose salts differ in
their first four characters produce different startup output — even
with adversarially chosen host and user values the line cannot
coincide, so the salt prefix is exposed in the logs. -/
theorem claim_C10_salt_prefix_exposed (h1 u1 s1 h2 u2 s2 : List Char)
    (hne : s1.take 4 ≠ s2.take 4) :
    startupMessage h1 u1 s1 ≠ startupMessage h2 u2 s2 := by
  intro heq
  apply hne
  simp only [startupMessage] at heq
  exact salt_tail_eq _ _ _ _
    (by rw [List.length_take]; exact min_le_left _ _)
    (by rw [List.length_take]; exact min_le_left _ _) heq

/-- Witness for C10: two concrete salts differing in their four-char
prefixes yield different startup lines. -/
theorem claim_C10_salt_prefix_exposed_witness :
    startupMessage "h".data "u".data "abcdX".data ≠
      startupMessage "h".data "u".data "wxyz".data :=
  claim_C10_salt_prefix_exposed "h".data "u".data "abcdX".data
    "h".data "u".data "wxyz".data (by decide)

end UserSeed
